import Mathlib

/-!
Verification of the command-execution core of a tmux MCP server
(source: src/tmux.ts).  The execution registry, the marker-protocol
parser of checkCommandStatus, the dispatcher executeCommand, the
stale-record cleanup and the shell-config adapter are embedded as
executable Lean definitions over `List Char` (pane text) and `String`
(identifiers and gateway command lines).  JavaScript string primitives
(String.prototype.lastIndexOf, substring, trim, indexOf, and the
regular expression TMUX_MCP_DONE_(\d+)) are modelled explicitly.
-/

namespace TmuxMcp

/-- The 'pending' | 'completed' | 'error' status union of a CommandExecution. -/
inductive CmdStatus
  | pending
  | completed
  | error
deriving DecidableEq

/-- The CommandExecution interface of src/tmux.ts (startTime as epoch
milliseconds; result text as a character list). -/
structure CommandExecution where
  id : String
  paneId : String
  command : String
  status : CmdStatus
  startTime : Int
  result : Option (List Char) := none
  exitCode : Option Nat := none
  rawMode : Bool := false
deriving DecidableEq

/-! ### JavaScript string primitives over `List Char` -/

/-- Whitespace recognised by String.prototype.trim (ASCII part). -/
def isJsWhitespace (c : Char) : Bool :=
  c == ' ' || c == '\n' || c == '\t' || c == '\r' || c == Char.ofNat 11 || c == Char.ofNat 12

/-- String.prototype.trim: strip leading and trailing whitespace. -/
def jsTrim (s : List Char) : List Char :=
  ((s.dropWhile isJsWhitespace).reverse.dropWhile isJsWhitespace).reverse

/-- Scan positions `n, n-1, ..., 0` for the highest index at which `pat`
occurs in `s`; the recursion behind `lastIndexOf`. -/
def lastIndexOfFrom (s pat : List Char) : Nat → Option Nat
  | 0 => if pat.isPrefixOf s then some 0 else none
  | n + 1 =>
    if pat.isPrefixOf (s.drop (n + 1)) then some (n + 1) else lastIndexOfFrom s pat n

/-- String.prototype.lastIndexOf: index of the last occurrence of `pat`
in `s` (`none` for JavaScript's -1). -/
def lastIndexOf (s pat : List Char) : Option Nat :=
  lastIndexOfFrom s pat s.length

/-- String.prototype.indexOf for a single character: first index of
`target` in `s`, or -1 when absent. -/
def jsIndexOfChar (s : List Char) (target : Char) : Int :=
  match s with
  | [] => -1
  | c :: cs =>
    if c = target then 0
    else
      let r := jsIndexOfChar cs target
      if r = -1 then -1 else r + 1

/-- String.prototype.substring with both arguments: indices are swapped
when out of order and clamped to the length. -/
def jsSubstring (s : List Char) (a b : Nat) : List Char :=
  (s.take (max a b)).drop (min a b)

/-- Decimal value of a digit string, as parseInt(_, 10) computes it on
the output of a (\d+) capture. -/
def digitsToNat (ds : List Char) : Nat :=
  ds.foldl (fun n c => 10 * n + (c.toNat - 48)) 0

/-! ### Marker literals and messages (src/tmux.ts lines 258-259, 330, 339) -/

def startMarkerText : List Char := "TMUX_MCP_START".toList

/-- The endMarkerPrefix literal TMUX_MCP_DONE_. -/
def endMarkerPfx : List Char := "TMUX_MCP_DONE_".toList

def couldNotCaptureMsg : List Char :=
  "Command output could not be captured properly".toList

def rawModeAdvisoryMsg : List Char :=
  "Status tracking unavailable for rawMode commands. Use capture-pane to monitor interactive apps instead.".toList

/-- The line containing position `i`: content.substring(i).split('\n')[0]. -/
def lineAt (content : List Char) (i : Nat) : List Char :=
  (content.drop i).takeWhile (fun c => c != '\n')

/-- endLine.match(new RegExp(`TMUX_MCP_DONE_(\d+)`)): leftmost occurrence
of the prefix followed by at least one digit; the greedy (\d+) capture. -/
def regexDigitMatch (line : List Char) : Option (List Char) :=
  match ((List.range (line.length + 1)).filter (fun i =>
      endMarkerPfx.isPrefixOf (line.drop i)
        && !((line.drop (i + endMarkerPfx.length)).takeWhile Char.isDigit).isEmpty)).head? with
  | some i => some ((line.drop (i + endMarkerPfx.length)).takeWhile Char.isDigit)
  | none => none

/-! ### checkCommandStatus (src/tmux.ts lines 321-365) -/

/-- The marker-parsing path of checkCommandStatus for a pending
non-rawMode record, given the captured pane content (lines 334-364). -/
def resolvePendingNormal (cmd : CommandExecution) (content : List Char) : CommandExecution :=
  match lastIndexOf content startMarkerText, lastIndexOf content endMarkerPfx with
  | some startIndex, some endIndex =>
    if endIndex ≤ startIndex then { cmd with result := some couldNotCaptureMsg }
    else
      match regexDigitMatch (lineAt content endIndex) with
      | some digits =>
        let exitCode := digitsToNat digits
        let outputStart := startIndex + startMarkerText.length
        let outputContent := jsTrim (jsSubstring content outputStart endIndex)
        let res := jsTrim (outputContent.drop (jsIndexOfChar outputContent '\n' + 1).toNat)
        { cmd with
            status := if exitCode = 0 then CmdStatus.completed else CmdStatus.error,
            exitCode := some exitCode,
            result := some res }
      | none => cmd
  | _, _ => { cmd with result := some couldNotCaptureMsg }

/-- Effect of checkCommandStatus on a pending record, given the captured
pane content (lines 329-364; the rawMode branch short-circuits parsing). -/
def checkStatusRecord (cmd : CommandExecution) (content : List Char) : CommandExecution :=
  if cmd.rawMode then { cmd with result := some rawModeAdvisoryMsg }
  else resolvePendingNormal cmd content

/-- activeCommands.set on an id already present in the registry: the
record object is mutated in place, visible at its position in the map. -/
def updateById (reg : List CommandExecution) (commandId : String) (c : CommandExecution) :
    List CommandExecution :=
  reg.map (fun r => if r.id = commandId then c else r)

/-- checkCommandStatus over the registry: unknown id returns none;
terminal records return unchanged; pending records are resolved against
the captured content and the mutation is visible in the registry. -/
def checkCommandStatus (reg : List CommandExecution) (commandId : String)
    (content : List Char) : Option CommandExecution × List CommandExecution :=
  match reg.find? (fun r => r.id == commandId) with
  | none => (none, reg)
  | some cmd =>
    if cmd.status ≠ CmdStatus.pending then (some cmd, reg)
    else
      let cmd' := checkStatusRecord cmd content
      (some cmd', updateById reg commandId cmd')

/-! ### executeCommand (src/tmux.ts lines 262-319) -/

/-- The VALID_SHELLS allow-list (line 262). -/
def VALID_SHELLS : List String :=
  ["bash", "zsh", "fish", "sh", "dash", "ksh", "tcsh", "csh", "ssh", "mosh"]

/-- The special key names recognised in noEnter mode (lines 293-295). -/
def specialKeys : List String :=
  ["Up", "Down", "Left", "Right", "Escape", "Tab", "Enter", "Space",
   "BSpace", "Delete", "Home", "End", "PageUp", "PageDown",
   "F1", "F2", "F3", "F4", "F5", "F6", "F7", "F8", "F9", "F10", "F11", "F12"]

/-- The single-quote character. -/
def sqChar : Char := Char.ofNat 39

def sqStr : String := String.singleton sqChar

/-- command.replace over every single quote, inserting the quote-backslash-
quote-quote escape sequence used by the source. -/
def escapeQuotes (s : String) : List Char :=
  (s.toList.map (fun c => if c = sqChar then [sqChar, '\\', sqChar, sqChar] else [c])).flatten

/-- String.prototype.toLowerCase (ASCII). -/
def jsToLower (s : String) : String := String.mk (s.toList.map Char.toLower)

/-- The pane_current_command query of the eligibility check (lines 268-269). -/
def displayMsgCmd (paneId : String) : String :=
  "display-message -p -t " ++ sqStr ++ paneId ++ sqStr ++ " " ++ sqStr
    ++ "#\x7bpane_current_command\x7d" ++ sqStr

/-- send-keys for one named special key (line 299). -/
def sendKeysSpecialCmd (paneId command : String) : String :=
  "send-keys -t " ++ sqStr ++ paneId ++ sqStr ++ " " ++ command

/-- send-keys for one individual character in noEnter mode (line 304). -/
def sendKeysCharCmd (paneId : String) (c : Char) : String :=
  "send-keys -t " ++ sqStr ++ paneId ++ sqStr ++ " " ++ sqStr
    ++ String.mk (if c = sqChar then [sqChar, '\\', sqChar, sqChar] else [c]) ++ sqStr

/-- send-keys for rawMode: literal text plus Enter, no markers (line 309). -/
def sendKeysRawCmd (paneId command : String) : String :=
  "send-keys -t " ++ sqStr ++ paneId ++ sqStr ++ " " ++ sqStr
    ++ String.mk (escapeQuotes command) ++ sqStr ++ " Enter"

/-- send-keys for normal mode: the __mcp_start hook token and the command,
each followed by Enter, in one gateway call (line 315). -/
def sendKeysNormalCmd (paneId command : String) : String :=
  "send-keys -t " ++ sqStr ++ paneId ++ sqStr ++ " " ++ sqStr ++ "__mcp_start" ++ sqStr
    ++ " Enter " ++ sqStr ++ String.mk (escapeQuotes command) ++ sqStr ++ " Enter"

/-- The sequence of gateway calls the chosen injection strategy issues
(lines 290-316). -/
def sendCommands (paneId command : String) (rawMode noEnter : Bool) : List String :=
  if noEnter then
    if specialKeys.contains command then [sendKeysSpecialCmd paneId command]
    else command.toList.map (sendKeysCharCmd paneId)
  else if rawMode then [sendKeysRawCmd paneId command]
  else [sendKeysNormalCmd paneId command]

/-- Run a list of gateway calls in order, stopping at the first failure;
returns the outcome and the trace of calls actually issued. -/
def runGatewayTrace (g : String → Except String String) :
    List String → Except String Unit × List String
  | [] => (Except.ok (), [])
  | c :: cs =>
    match g c with
    | Except.ok _ =>
      let (r, t) := runGatewayTrace g cs
      (r, c :: t)
    | Except.error e => (Except.error e, [c])

/-- Errors executeCommand can raise: a propagated gateway failure, or the
ineligible-pane rejection thrown before any keys are sent. -/
inductive ExecErr
  | gatewayFailure (msg : String)
  | ineligiblePane (msg : List Char)
deriving DecidableEq

/-- The ineligible-pane error message (line 272), which embeds the
offending pane_current_command value between single quotes. -/
def ineligibleMsg (paneId currentCommand : String) : List Char :=
  "Cannot execute command: pane ".toList ++ paneId.toList ++ " is running ".toList
    ++ [sqChar] ++ currentCommand.toList ++ [sqChar]
    ++ ", not a shell. Use rawMode for interactive applications.".toList

/-- The fresh execution record stored at submission (lines 280-287):
status pending, no result, no exitCode, rawMode set to rawMode || noEnter. -/
def mkRecord (newId : String) (now : Int) (paneId command : String)
    (rawMode noEnter : Bool) : CommandExecution :=
  { id := newId, paneId := paneId, command := command, status := CmdStatus.pending,
    startTime := now, result := none, exitCode := none, rawMode := rawMode || noEnter }

/-- Map.prototype.set: replace in place when the key exists, append
otherwise. -/
def mapSet (reg : List CommandExecution) (c : CommandExecution) : List CommandExecution :=
  if reg.any (fun r => r.id == c.id) then reg.map (fun r => if r.id = c.id then c else r)
  else reg ++ [c]

/-- Registration and key transmission (lines 277-318): the record is put
into the registry first, then the injection strategy's gateway calls run;
a gateway failure propagates but the record stays registered. -/
def dispatchAndSend (g : String → Except String String) (reg : List CommandExecution)
    (newId : String) (now : Int) (paneId command : String) (rawMode noEnter : Bool) :
    Except ExecErr String × List CommandExecution × List String :=
  let reg' := mapSet reg (mkRecord newId now paneId command rawMode noEnter)
  match runGatewayTrace g (sendCommands paneId command rawMode noEnter) with
  | (Except.ok _, t) => (Except.ok newId, reg', t)
  | (Except.error e, t) => (Except.error (ExecErr.gatewayFailure e), reg', t)

/-- executeCommand (lines 265-319): eligibility check for normal mode,
then registration and key transmission.  Returns the outcome, the new
registry, and the trace of gateway calls issued. -/
def executeCommand (g : String → Except String String) (reg : List CommandExecution)
    (newId : String) (now : Int) (paneId command : String) (rawMode noEnter : Bool) :
    Except ExecErr String × List CommandExecution × List String :=
  if !rawMode && !noEnter then
    match g (displayMsgCmd paneId) with
    | Except.error e => (Except.error (ExecErr.gatewayFailure e), reg, [displayMsgCmd paneId])
    | Except.ok currentCommand =>
      if !(VALID_SHELLS.contains (jsToLower currentCommand)) then
        (Except.error (ExecErr.ineligiblePane (ineligibleMsg paneId currentCommand)), reg,
          [displayMsgCmd paneId])
      else
        let r := dispatchAndSend g reg newId now paneId command rawMode noEnter
        (r.1, r.2.1, displayMsgCmd paneId :: r.2.2)
  else dispatchAndSend g reg newId now paneId command rawMode noEnter

/-! ### Registry queries and cleanup (src/tmux.ts lines 368-388) -/

def getCommand (reg : List CommandExecution) (commandId : String) : Option CommandExecution :=
  reg.find? (fun r => r.id == commandId)

def getActiveCommandIds (reg : List CommandExecution) : List String :=
  reg.map (fun r => r.id)

/-- (now - startTime) / (1000 * 60), exact rational arithmetic. -/
def ageMinutes (now : Int) (c : CommandExecution) : ℚ :=
  ((now - c.startTime : Int) : ℚ) / (1000 * 60)

/-- cleanupOldCommands: delete every record that is not pending and whose
age in minutes strictly exceeds maxAgeMinutes. -/
def cleanupOldCommands (reg : List CommandExecution) (now : Int) (maxAgeMinutes : ℚ) :
    List CommandExecution :=
  reg.filter (fun c => !(decide (c.status ≠ CmdStatus.pending)
    && decide (maxAgeMinutes < ageMinutes now c)))

/-! ### Shell configuration (src/tmux.ts lines 42-55, 390-394) -/

inductive ShellType
  | bash
  | zsh
  | fish
deriving DecidableEq

/-- setShellConfig: keep a recognised shell family, coerce anything else
to bash. -/
def setShellConfig (t : String) : ShellType :=
  if t = "bash" then ShellType.bash
  else if t = "zsh" then ShellType.zsh
  else if t = "fish" then ShellType.fish
  else ShellType.bash

/-- getEndMarkerText: the end-marker prefix followed by the shell's
exit-status expansion. -/
def getEndMarkerText (c : ShellType) : List Char :=
  if c = ShellType.fish then endMarkerPfx ++ "$status".toList
  else endMarkerPfx ++ "$?".toList

/-! ### The tracker as a step system (for registry-level invariants) -/

/-- One operation of the module that can change the registry. -/
inductive TrackerOp
  | exec (g : String → Except String String) (newId : String) (now : Int)
      (paneId command : String) (rawMode noEnter : Bool)
  | check (commandId : String) (content : List Char)
  | cleanup (now : Int) (maxAgeMinutes : ℚ)

/-- Registry after running one operation. -/
def applyOp (reg : List CommandExecution) : TrackerOp → List CommandExecution
  | TrackerOp.exec g newId now paneId command rawMode noEnter =>
    (executeCommand g reg newId now paneId command rawMode noEnter).2.1
  | TrackerOp.check commandId content => (checkCommandStatus reg commandId content).2
  | TrackerOp.cleanup now maxAgeMinutes => cleanupOldCommands reg now maxAgeMinutes

/-- The spec's pending-record invariant as stated: a pending record has
neither exitCode nor result. -/
def PendingClean (reg : List CommandExecution) : Prop :=
  ∀ c ∈ reg, c.status = CmdStatus.pending → c.exitCode = none ∧ c.result = none

/-- The part of the pending-record invariant the code actually maintains:
a pending record has no exitCode. -/
def PendingNoExit (reg : List CommandExecution) : Prop :=
  ∀ c ∈ reg, c.status = CmdStatus.pending → c.exitCode = none

instance (reg : List CommandExecution) : Decidable (PendingClean reg) := by
  unfold PendingClean; infer_instance

instance (reg : List CommandExecution) : Decidable (PendingNoExit reg) := by
  unfold PendingNoExit; infer_instance

/-- Both-markers-found-in-order condition of the parser (line 338 negated). -/
def markersInOrder (content : List Char) : Bool :=
  match lastIndexOf content startMarkerText, lastIndexOf content endMarkerPfx with
  | some s, some e => decide (s < e)
  | _, _ => false

/-- Modelled from the spec (4.4 step 4): the trimmed inter-marker span
"with the first line of that span discarded" unconditionally, then
trimmed again.  Compared against the extraction the code performs. -/
def specResultOf (content : List Char) (s e : Nat) : List Char :=
  jsTrim (((jsTrim (jsSubstring content (s + startMarkerText.length) e)).dropWhile
    (fun c => c != '\n')).drop 1)

/-- The trimmed text strictly between the end of the start marker and the
start of the end marker. -/
def outputSpan (content : List Char) (s e : Nat) : List Char :=
  jsTrim (jsSubstring content (s + startMarkerText.length) e)

/-! ### Sample records and contents used by witnesses and counterexamples -/

/-- A freshly registered pending normal-mode record. -/
def samplePending : CommandExecution :=
  { id := "c1", paneId := "%1", command := "echo hi", status := CmdStatus.pending,
    startTime := 0 }

/-- A freshly registered pending rawMode record. -/
def sampleRaw : CommandExecution :=
  { id := "c9", paneId := "%1", command := "q", status := CmdStatus.pending,
    startTime := 0, rawMode := true }

/-- The captured-content scenario of spec section 8. -/
def scenarioContent : List Char :=
  "...TMUX_MCP_START\necho hi\nhi\nTMUX_MCP_DONE_0\n$ ".toList

/-- Markers in order but the span between them has no newline. -/
def cexContent : List Char := "TMUX_MCP_STARTabcTMUX_MCP_DONE_0".toList

/-- Markers in order but no digits after the end-marker prefix. -/
def c3Content : List Char := "TMUX_MCP_START\nTMUX_MCP_DONE_X".toList

/-- Markers in order with exit code 2. -/
def c2Content : List Char := "TMUX_MCP_START\nx\nTMUX_MCP_DONE_2\n".toList

/-- A gateway whose pane reports foreground process Bash (capital B). -/
def gBash : String → Except String String :=
  fun s => if s = displayMsgCmd "%1" then Except.ok "Bash" else Except.ok ""

/-- A gateway whose pane reports foreground process vim. -/
def gVim : String → Except String String :=
  fun s => if s = displayMsgCmd "%1" then Except.ok "vim" else Except.ok ""

/-- A gateway that answers the eligibility query with bash but fails
every send-keys call. -/
def gFail : String → Except String String :=
  fun s => if s = displayMsgCmd "%1" then Except.ok "bash" else Except.error "boom"

end TmuxMcp

deriving instance DecidableEq for Except

namespace TmuxMcp

/-! ### Properties of the JavaScript string primitives -/

theorem lastIndexOfFrom_isPrefixOf (s pat : List Char) :
    ∀ n i, lastIndexOfFrom s pat n = some i → pat.isPrefixOf (s.drop i) = true := by
  intro n
  induction n with
  | zero =>
    intro i h
    unfold lastIndexOfFrom at h
    split at h
    · rename_i hpre
      cases h
      simpa using hpre
    · cases h
  | succ k ih =>
    intro i h
    unfold lastIndexOfFrom at h
    split at h
    · rename_i hpre
      cases h
      exact hpre
    · exact ih i h

theorem lastIndexOfFrom_maximal (s pat : List Char) :
    ∀ n i, lastIndexOfFrom s pat n = some i →
      ∀ j, j ≤ n → pat.isPrefixOf (s.drop j) = true → j ≤ i := by
  intro n
  induction n with
  | zero =>
    intro i h j hj _
    omega
  | succ k ih =>
    intro i h j hj hpre
    unfold lastIndexOfFrom at h
    split at h
    · cases h; omega
    · rename_i hnpre
      rcases Nat.lt_or_ge j (k + 1) with hlt | hge
      · exact ih i h j (by omega) hpre
      · exfalso
        have hje : j = k + 1 := by omega
        subst hje
        exact hnpre hpre

theorem lastIndexOfFrom_none (s pat : List Char) :
    ∀ n, lastIndexOfFrom s pat n = none →
      ∀ j, j ≤ n → pat.isPrefixOf (s.drop j) = false := by
  intro n
  induction n with
  | zero =>
    intro h j hj
    have hj0 : j = 0 := by omega
    subst hj0
    unfold lastIndexOfFrom at h
    split at h
    · cases h
    · rename_i hpre
      rw [List.drop_zero]
      exact Bool.eq_false_iff.mpr hpre
  | succ k ih =>
    intro h j hj
    unfold lastIndexOfFrom at h
    split at h
    · cases h
    · rename_i hpre
      rcases Nat.lt_or_ge j (k + 1) with hlt | hge
      · exact ih h j (by omega)
      · have hje : j = k + 1 := by omega
        subst hje
        exact Bool.eq_false_iff.mpr hpre

/-- lastIndexOf finds an occurrence, and the last one: every other
occurrence of a nonempty pattern is at or before it. -/
theorem lastIndexOf_spec (s pat : List Char)
    (hnil : pat.isPrefixOf ([] : List Char) = false) (i : Nat)
    (h : lastIndexOf s pat = some i) :
    pat.isPrefixOf (s.drop i) = true
      ∧ ∀ j, pat.isPrefixOf (s.drop j) = true → j ≤ i := by
  refine ⟨lastIndexOfFrom_isPrefixOf s pat s.length i h, ?_⟩
  intro j hj
  rcases le_or_lt j s.length with hle | hgt
  · exact lastIndexOfFrom_maximal s pat s.length i h j hle hj
  · exfalso
    have hdrop : s.drop j = [] := List.drop_eq_nil_of_le (by omega)
    rw [hdrop, hnil] at hj
    cases hj

theorem jsIndexOfChar_nonneg_of_mem (t : Char) :
    ∀ l : List Char, t ∈ l → 0 ≤ jsIndexOfChar l t := by
  intro l
  induction l with
  | nil => intro h; cases h
  | cons c cs ih =>
    intro h
    unfold jsIndexOfChar
    by_cases hc : c = t
    · simp [hc]
    · have ht : t ∈ cs := by
        rcases List.mem_cons.mp h with h1 | h1
        · exact absurd h1.symm hc
        · exact h1
      have := ih ht
      simp only [hc, if_false]
      split
      · omega
      · omega

theorem jsIndexOfChar_eq_neg_one_of_not_mem (t : Char) :
    ∀ l : List Char, t ∉ l → jsIndexOfChar l t = -1 := by
  intro l
  induction l with
  | nil => intro _; rfl
  | cons c cs ih =>
    intro h
    unfold jsIndexOfChar
    have hc : ¬ c = t := fun hct => h (hct ▸ List.mem_cons_self c cs)
    have hcs : t ∉ cs := fun ht => h (List.mem_cons_of_mem c ht)
    simp [hc, ih hcs]

/-- Dropping past the first newline via indexOf agrees with discarding
through the first newline, whenever a newline is present. -/
theorem drop_indexOf_newline (t : Char) :
    ∀ l : List Char, t ∈ l →
      l.drop (jsIndexOfChar l t + 1).toNat = (l.dropWhile (fun c => c != t)).drop 1 := by
  intro l
  induction l with
  | nil => intro h; cases h
  | cons c cs ih =>
    intro h
    by_cases hc : c = t
    · subst hc
      simp [jsIndexOfChar, List.dropWhile]
    · have ht : t ∈ cs := by
        rcases List.mem_cons.mp h with h1 | h1
        · exact absurd h1.symm hc
        · exact h1
      have hnn := jsIndexOfChar_nonneg_of_mem t cs ht
      have hne : jsIndexOfChar cs t ≠ -1 := by omega
      have hdw : (c :: cs).dropWhile (fun x => x != t) = cs.dropWhile (fun x => x != t) := by
        rw [List.dropWhile_cons, if_pos (by simp [hc])]
      have hstep : jsIndexOfChar (c :: cs) t = jsIndexOfChar cs t + 1 := by
        show (if c = t then (0 : Int)
          else if jsIndexOfChar cs t = -1 then -1 else jsIndexOfChar cs t + 1)
            = jsIndexOfChar cs t + 1
        rw [if_neg hc, if_neg hne]
      rw [hdw, ← ih ht, hstep]
      have harith : (jsIndexOfChar cs t + 1 + 1).toNat = (jsIndexOfChar cs t + 1).toNat + 1 := by
        omega
      rw [harith, List.drop_succ_cons]

/-! ### Registry helper lemmas -/

theorem mem_updateById {reg : List CommandExecution} {cid : String}
    {c' r : CommandExecution} (h : r ∈ updateById reg cid c') : r = c' ∨ r ∈ reg := by
  unfold updateById at h
  rcases List.mem_map.mp h with ⟨x, hx, hfx⟩
  by_cases hid : x.id = cid
  · rw [if_pos hid] at hfx
    exact Or.inl hfx.symm
  · rw [if_neg hid] at hfx
    exact Or.inr (hfx ▸ hx)

theorem mem_mapSet {reg : List CommandExecution} {c r : CommandExecution}
    (h : r ∈ mapSet reg c) : r = c ∨ r ∈ reg := by
  unfold mapSet at h
  split at h
  · rcases List.mem_map.mp h with ⟨x, hx, hfx⟩
    by_cases hid : x.id = c.id
    · rw [if_pos hid] at hfx
      exact Or.inl hfx.symm
    · rw [if_neg hid] at hfx
      exact Or.inr (hfx ▸ hx)
  · rcases List.mem_append.mp h with h1 | h1
    · exact Or.inr h1
    · exact Or.inl (List.mem_singleton.mp h1)

theorem mem_mapSet_self (reg : List CommandExecution) (c : CommandExecution) :
    c ∈ mapSet reg c := by
  unfold mapSet
  split
  · rename_i hany
    rcases List.any_eq_true.mp hany with ⟨r, hr, hid⟩
    refine List.mem_map.mpr ⟨r, hr, ?_⟩
    rw [if_pos (by simpa using hid)]
  · exact List.mem_append_right _ (List.mem_singleton.mpr rfl)

/-- A record whose exitCode is unset keeps it unset through a status
check unless the check moves it to a terminal status. -/
theorem checkStatusRecord_no_exit (cmd : CommandExecution) (content : List Char)
    (hx : cmd.exitCode = none) :
    (checkStatusRecord cmd content).status = CmdStatus.pending →
      (checkStatusRecord cmd content).exitCode = none := by
  unfold checkStatusRecord
  by_cases hraw : cmd.rawMode
  · simp [hraw, hx]
  · simp only [hraw, Bool.false_eq_true, if_false]
    unfold resolvePendingNormal
    split
    · split
      · intro _; simpa using hx
      · split
        · intro hst
          exfalso
          revert hst
          simp only
          split <;> simp
        · intro _; exact hx
    · intro _; simpa using hx

/-- The record produced by the success path of the marker parser, in
terms of the located marker positions and the captured digits. -/
theorem checkStatusRecord_success (cmd : CommandExecution) (content : List Char)
    (hr : cmd.rawMode = false) (s e : Nat)
    (hs : lastIndexOf content startMarkerText = some s)
    (he : lastIndexOf content endMarkerPfx = some e) (hse : s < e)
    (ds : List Char) (hd : regexDigitMatch (lineAt content e) = some ds) :
    checkStatusRecord cmd content = { cmd with
      status := if digitsToNat ds = 0 then CmdStatus.completed else CmdStatus.error,
      exitCode := some (digitsToNat ds),
      result := some (jsTrim ((outputSpan content s e).drop
        (jsIndexOfChar (outputSpan content s e) '\n' + 1).toNat)) } := by
  unfold checkStatusRecord resolvePendingNormal
  simp only [hr, Bool.false_eq_true, if_false, hs, he, hd]
  rw [if_neg (by omega : ¬ e ≤ s)]
  rfl

/-- The record is unchanged by the marker parser when the end-marker line
carries no digits after the prefix. -/
theorem checkStatusRecord_no_digits (cmd : CommandExecution) (content : List Char)
    (hr : cmd.rawMode = false) (s e : Nat)
    (hs : lastIndexOf content startMarkerText = some s)
    (he : lastIndexOf content endMarkerPfx = some e) (hse : s < e)
    (hd : regexDigitMatch (lineAt content e) = none) :
    checkStatusRecord cmd content = cmd := by
  unfold checkStatusRecord resolvePendingNormal
  simp only [hr, Bool.false_eq_true, if_false, hs, he, hd]
  rw [if_neg (by omega : ¬ e ≤ s)]

/-- The registry dispatchAndSend produces: always the pending record set
into the incoming registry, whatever the gateway does. -/
theorem dispatchAndSend_registry (g : String → Except String String)
    (reg : List CommandExecution) (newId : String) (now : Int)
    (paneId command : String) (rawMode noEnter : Bool) :
    (dispatchAndSend g reg newId now paneId command rawMode noEnter).2.1
      = mapSet reg (mkRecord newId now paneId command rawMode noEnter) := by
  unfold dispatchAndSend
  split <;> rfl

/-- Registry produced by executeCommand: unchanged on rejection, or the
pending record set into it. -/
theorem executeCommand_registry (g : String → Except String String)
    (reg : List CommandExecution) (newId : String) (now : Int)
    (paneId command : String) (rawMode noEnter : Bool) :
    (executeCommand g reg newId now paneId command rawMode noEnter).2.1 = reg
      ∨ (executeCommand g reg newId now paneId command rawMode noEnter).2.1
          = mapSet reg (mkRecord newId now paneId command rawMode noEnter) := by
  unfold executeCommand
  split
  · rcases hq : g (displayMsgCmd paneId) with e | cur
    · simp [hq]
    · simp only [hq]
      split
      · simp
      · right
        exact dispatchAndSend_registry g reg newId now paneId command rawMode noEnter
  · right
    exact dispatchAndSend_registry g reg newId now paneId command rawMode noEnter

/-! ### Claim theorems -/

/-- Claim C1: for a pending non-rawMode record, the status check locates
the last occurrence of the start-marker literal and the last occurrence
of the end-marker prefix; it resolves the record only when both are
found and the end marker's position is strictly after the start
marker's, and otherwise it sets the fixed could-not-be-captured result
and leaves the status pending. -/
theorem C1_last_marker_resolution (cmd : CommandExecution) (content : List Char)
    (hp : cmd.status = CmdStatus.pending) (hr : cmd.rawMode = false) :
    (∀ i, lastIndexOf content startMarkerText = some i →
        startMarkerText.isPrefixOf (content.drop i) = true
          ∧ ∀ j, startMarkerText.isPrefixOf (content.drop j) = true → j ≤ i)
    ∧ (∀ i, lastIndexOf content endMarkerPfx = some i →
        endMarkerPfx.isPrefixOf (content.drop i) = true
          ∧ ∀ j, endMarkerPfx.isPrefixOf (content.drop j) = true → j ≤ i)
    ∧ (markersInOrder content = false →
        checkStatusRecord cmd content = { cmd with result := some couldNotCaptureMsg }
          ∧ (checkStatusRecord cmd content).status = CmdStatus.pending)
    ∧ ((checkStatusRecord cmd content).status ≠ CmdStatus.pending →
        markersInOrder content = true) := by
  have h3 : markersInOrder content = false →
      checkStatusRecord cmd content = { cmd with result := some couldNotCaptureMsg }
        ∧ (checkStatusRecord cmd content).status = CmdStatus.pending := by
    intro hm
    have heq : checkStatusRecord cmd content
        = { cmd with result := some couldNotCaptureMsg } := by
      unfold checkStatusRecord resolvePendingNormal
      simp only [hr, Bool.false_eq_true, if_false]
      unfold markersInOrder at hm
      rcases h1 : lastIndexOf content startMarkerText with _ | s
        <;> rcases h2 : lastIndexOf content endMarkerPfx with _ | e
        <;> simp only [h1, h2] at hm ⊢
      have hle : e ≤ s := by
        simp only [decide_eq_false_iff_not, Nat.not_lt] at hm
        exact hm
      rw [if_pos hle]
    refine ⟨heq, ?_⟩
    rw [heq]
    exact hp
  refine ⟨?_, ?_, h3, ?_⟩
  · intro i h
    exact lastIndexOf_spec content startMarkerText (by decide) i h
  · intro i h
    exact lastIndexOf_spec content endMarkerPfx (by decide) i h
  · intro hne
    cases hmo : markersInOrder content
    · exact absurd (h3 hmo).2 hne
    · rfl

theorem C1_last_marker_resolution_witness :
    checkStatusRecord samplePending ("no markers".toList)
      = { samplePending with result := some couldNotCaptureMsg } :=
  ((C1_last_marker_resolution samplePending ("no markers".toList) rfl rfl).2.2.1
    (by decide)).1

/-- Claim C2: whenever the parser extracts digits after the end-marker
prefix, the record's exitCode is exactly the parsed integer, and the
status is completed when it is 0 and error for any other value. -/
theorem C2_exit_code_parsing (cmd : CommandExecution) (content : List Char)
    (hr : cmd.rawMode = false) (s e : Nat)
    (hs : lastIndexOf content startMarkerText = some s)
    (he : lastIndexOf content endMarkerPfx = some e) (hse : s < e)
    (ds : List Char) (hd : regexDigitMatch (lineAt content e) = some ds) :
    (checkStatusRecord cmd content).exitCode = some (digitsToNat ds)
    ∧ (checkStatusRecord cmd content).status
        = (if digitsToNat ds = 0 then CmdStatus.completed else CmdStatus.error) := by
  rw [checkStatusRecord_success cmd content hr s e hs he hse ds hd]
  exact ⟨rfl, rfl⟩

theorem C2_exit_code_parsing_witness :
    (checkStatusRecord samplePending c2Content).exitCode = some 2
    ∧ (checkStatusRecord samplePending c2Content).status = CmdStatus.error := by
  have h := C2_exit_code_parsing samplePending c2Content rfl 0 17 (by decide) (by decide)
    (by decide) ("2".toList) (by decide)
  exact ⟨h.1, h.2⟩

/-- Claim C3: when both markers are found in order but no digits follow
the end-marker prefix on its line, the status check leaves the record
entirely unchanged, so the status stays pending and the exitCode is not
set; the operation is total. -/
theorem C3_no_digits_leaves_pending (cmd : CommandExecution) (content : List Char)
    (hp : cmd.status = CmdStatus.pending) (hr : cmd.rawMode = false) (s e : Nat)
    (hs : lastIndexOf content startMarkerText = some s)
    (he : lastIndexOf content endMarkerPfx = some e) (hse : s < e)
    (hd : regexDigitMatch (lineAt content e) = none) :
    checkStatusRecord cmd content = cmd
    ∧ (checkStatusRecord cmd content).status = CmdStatus.pending
    ∧ (checkStatusRecord cmd content).exitCode = cmd.exitCode := by
  have heq := checkStatusRecord_no_digits cmd content hr s e hs he hse hd
  refine ⟨heq, ?_, ?_⟩
  · rw [heq]
    exact hp
  · rw [heq]

theorem C3_no_digits_leaves_pending_witness :
    checkStatusRecord samplePending c3Content = samplePending :=
  (C3_no_digits_leaves_pending samplePending c3Content rfl rfl 0 15 (by decide) (by decide)
    (by decide) (by decide)).1

/-- Claim C6: the status check of a pending rawMode record sets only the
fixed advisory result: status, exitCode and rawMode are untouched for
every captured content, so the record stays pending through this path. -/
theorem C6_rawmode_check_noop (cmd : CommandExecution) (content : List Char)
    (hp : cmd.status = CmdStatus.pending) (hr : cmd.rawMode = true) :
    checkStatusRecord cmd content = { cmd with result := some rawModeAdvisoryMsg }
    ∧ (checkStatusRecord cmd content).status = CmdStatus.pending
    ∧ (checkStatusRecord cmd content).exitCode = cmd.exitCode
    ∧ (checkStatusRecord cmd content).rawMode = true := by
  have heq : checkStatusRecord cmd content
      = { cmd with result := some rawModeAdvisoryMsg } := by
    unfold checkStatusRecord
    rw [if_pos hr]
  refine ⟨heq, ?_, ?_, ?_⟩
  · rw [heq]
    exact hp
  · rw [heq]
  · rw [heq]
    exact hr

theorem C6_rawmode_check_noop_witness :
    checkStatusRecord sampleRaw scenarioContent
      = { sampleRaw with result := some rawModeAdvisoryMsg } :=
  (C6_rawmode_check_noop sampleRaw scenarioContent rfl rfl).1

/-- Claim C9: the shell adapter produces the fish exit-status expansion
for fish, the POSIX-style one for bash and zsh, and coerces every
unrecognised shell family to bash with the bash expansion. -/
theorem C9_shell_adapter (t : String) :
    getEndMarkerText (setShellConfig t)
        = (if t = "fish" then endMarkerPfx ++ "$status".toList
           else endMarkerPfx ++ "$?".toList)
    ∧ ((["bash", "zsh", "fish"] : List String).contains t = false →
        setShellConfig t = ShellType.bash) := by
  by_cases h1 : t = "bash"
  · subst h1
    exact ⟨by decide, fun _ => by decide⟩
  · by_cases h2 : t = "zsh"
    · subst h2
      exact ⟨by decide, fun h => absurd h (by decide)⟩
    · by_cases h3 : t = "fish"
      · subst h3
        exact ⟨by decide, fun h => absurd h (by decide)⟩
      · have hc : setShellConfig t = ShellType.bash := by
          unfold setShellConfig
          rw [if_neg h1, if_neg h2, if_neg h3]
        refine ⟨?_, fun _ => hc⟩
        rw [hc, if_neg h3]
        decide

theorem C9_shell_adapter_witness :
    (["bash", "zsh", "fish"] : List String).contains "powershell" = false
    ∧ setShellConfig "powershell" = ShellType.bash :=
  ⟨by decide, (C9_shell_adapter "powershell").2 (by decide)⟩

/-- Claim C4 counterexample: a successful resolution whose inter-marker
span has no newline.  The code keeps the whole span (result abc), while
the claimed formula, which discards the first line of the span
unconditionally, yields the empty string. -/
theorem C4_first_line_counterexample :
    (checkStatusRecord samplePending cexContent).status = CmdStatus.completed
    ∧ (checkStatusRecord samplePending cexContent).exitCode = some 0
    ∧ (checkStatusRecord samplePending cexContent).result = some ("abc".toList)
    ∧ lastIndexOf cexContent startMarkerText = some 0
    ∧ lastIndexOf cexContent endMarkerPfx = some 17
    ∧ specResultOf cexContent 0 17 = []
    ∧ ("abc".toList : List Char) ≠ [] := by
  decide

/-- Claim C4 (amended): on a successful resolution the result is the
trimmed inter-marker span with everything up to and including its first
newline removed when the span contains a newline, and the whole span
kept when it contains none, trimmed again; on the spec's scenario
content the result is hi with status completed and exitCode 0. -/
theorem C4_output_extraction_amended (cmd : CommandExecution) (content : List Char)
    (hr : cmd.rawMode = false) (s e : Nat)
    (hs : lastIndexOf content startMarkerText = some s)
    (he : lastIndexOf content endMarkerPfx = some e) (hse : s < e)
    (ds : List Char) (hd : regexDigitMatch (lineAt content e) = some ds) :
    (checkStatusRecord cmd content).result
        = some (jsTrim ((outputSpan content s e).drop
            (jsIndexOfChar (outputSpan content s e) '\n' + 1).toNat))
    ∧ ('\n' ∈ outputSpan content s e →
        (checkStatusRecord cmd content).result = some (specResultOf content s e))
    ∧ ('\n' ∉ outputSpan content s e →
        (checkStatusRecord cmd content).result = some (jsTrim (outputSpan content s e)))
    ∧ (checkStatusRecord samplePending scenarioContent).status = CmdStatus.completed
    ∧ (checkStatusRecord samplePending scenarioContent).exitCode = some 0
    ∧ (checkStatusRecord samplePending scenarioContent).result = some ("hi".toList) := by
  have hbase := checkStatusRecord_success cmd content hr s e hs he hse ds hd
  refine ⟨by rw [hbase], ?_, ?_, by decide, by decide, by decide⟩
  · intro hmem
    rw [hbase]
    show some (jsTrim ((outputSpan content s e).drop
      (jsIndexOfChar (outputSpan content s e) '\n' + 1).toNat)) = _
    rw [drop_indexOf_newline '\n' (outputSpan content s e) hmem]
    rfl
  · intro hmem
    rw [hbase]
    show some (jsTrim ((outputSpan content s e).drop
      (jsIndexOfChar (outputSpan content s e) '\n' + 1).toNat)) = _
    rw [jsIndexOfChar_eq_neg_one_of_not_mem '\n' (outputSpan content s e) hmem]
    rfl

theorem C4_output_extraction_amended_witness :
    (checkStatusRecord samplePending scenarioContent).result = some ("hi".toList) :=
  (C4_output_extraction_amended samplePending scenarioContent rfl 3 29 (by decide)
    (by decide) (by decide) ("0".toList) (by decide)).2.2.2.2.2

/-- Claim C5 counterexample: a failed status check on a pending record
sets the fixed could-not-be-captured result while the status stays
pending, so a pending record can carry a result. -/
theorem C5_pending_clean_counterexample :
    PendingClean [samplePending]
    ∧ ¬ PendingClean (applyOp [samplePending] (TrackerOp.check "c1" ("xyz".toList))) := by
  constructor
  · decide
  · decide

/-- Claim C5 (amended): every operation preserves the invariant that a
pending record has no exitCode; the result of a pending record can be
set (to an advisory message) by a failed or rawMode status check. -/
theorem C5_pending_no_exitcode_preserved (reg : List CommandExecution) (op : TrackerOp)
    (h : PendingNoExit reg) : PendingNoExit (applyOp reg op) := by
  cases op with
  | exec g newId now paneId command rawMode noEnter =>
    show PendingNoExit (executeCommand g reg newId now paneId command rawMode noEnter).2.1
    rcases executeCommand_registry g reg newId now paneId command rawMode noEnter
      with heq | heq
    · rw [heq]
      exact h
    · rw [heq]
      intro r hr hpend
      rcases mem_mapSet hr with hcase | hcase
      · rw [hcase]
        rfl
      · exact h r hcase hpend
  | check commandId content =>
    show PendingNoExit (checkCommandStatus reg commandId content).2
    unfold checkCommandStatus
    rcases hfind : reg.find? (fun r => r.id == commandId) with _ | cmd
    · simp only [hfind]
      exact h
    · simp only [hfind]
      by_cases hst : cmd.status ≠ CmdStatus.pending
      · rw [if_pos hst]
        exact h
      · rw [if_neg hst]
        have hpend : cmd.status = CmdStatus.pending := not_not.mp hst
        have hcmdmem : cmd ∈ reg := List.mem_of_find?_eq_some hfind
        have hx : cmd.exitCode = none := h cmd hcmdmem hpend
        intro r hr hrpend
        rcases mem_updateById hr with hcase | hcase
        · rw [hcase] at hrpend ⊢
          exact checkStatusRecord_no_exit cmd content hx hrpend
        · exact h r hcase hrpend
  | cleanup now m =>
    show PendingNoExit (cleanupOldCommands reg now m)
    intro r hr
    exact h r (List.mem_of_mem_filter hr)

theorem C5_pending_no_exitcode_preserved_witness :
    PendingNoExit [samplePending]
    ∧ PendingNoExit (applyOp [samplePending] (TrackerOp.check "c1" ("xyz".toList))) :=
  ⟨by decide, C5_pending_no_exitcode_preserved [samplePending]
    (TrackerOp.check "c1" ("xyz".toList)) (by decide)⟩

/-- Claim C7: stale-record eviction keeps exactly the records that are
pending or within the age threshold; pending records survive at any age,
terminal records at or under the threshold are untouched, and the
surviving records keep their order. -/
theorem C7_evict_stale_exact (reg : List CommandExecution) (now : Int) (m : ℚ) :
    (∀ c, c ∈ cleanupOldCommands reg now m
        ↔ c ∈ reg ∧ (c.status = CmdStatus.pending ∨ ageMinutes now c ≤ m))
    ∧ (cleanupOldCommands reg now m).Sublist reg := by
  constructor
  · intro c
    unfold cleanupOldCommands
    rw [List.mem_filter]
    constructor
    · rintro ⟨hmem, hcond⟩
      refine ⟨hmem, ?_⟩
      by_cases hst : c.status = CmdStatus.pending
      · exact Or.inl hst
      · right
        simp only [Bool.not_eq_true', Bool.and_eq_false_iff, decide_eq_false_iff_not,
          not_not] at hcond
        rcases hcond with hcond | hcond
        · exact absurd hcond hst
        · exact not_lt.mp hcond
    · rintro ⟨hmem, hor⟩
      refine ⟨hmem, ?_⟩
      rcases hor with hst | hage
      · simp [hst]
      · have hnl : ¬ m < ageMinutes now c := not_lt.mpr hage
        simp [hnl]
  · exact List.filter_sublist reg

/-- Claim C8 counterexample: the eligibility check lowercases the
foreground process name before consulting the allow-list, so Bash
(capital B) is not in the allow-list yet the submission succeeds and
sends keys instead of failing with the ineligible-pane error. -/
theorem C8_case_insensitive_counterexample :
    VALID_SHELLS.contains "Bash" = false
    ∧ (executeCommand gBash [] "id-1" 0 "%1" "ls" false false).1 = Except.ok "id-1"
    ∧ mkRecord "id-1" 0 "%1" "ls" false false
        ∈ (executeCommand gBash [] "id-1" 0 "%1" "ls" false false).2.1 := by
  refine ⟨by decide, by decide, by decide⟩

/-- Claim C8 (amended): a normal-mode submission whose pane's foreground
process name, lowercased, is not in the allow-list fails with the
ineligible-pane error embedding that name, leaves the registry
unchanged, and issues only the eligibility query so no keys are sent;
the check is skipped whenever rawMode or noEnter is set. -/
theorem C8_eligibility_check_amended (g : String → Except String String)
    (reg : List CommandExecution) (newId : String) (now : Int)
    (paneId command cur : String)
    (hq : g (displayMsgCmd paneId) = Except.ok cur)
    (hbad : VALID_SHELLS.contains (jsToLower cur) = false) :
    executeCommand g reg newId now paneId command false false
        = (Except.error (ExecErr.ineligiblePane (ineligibleMsg paneId cur)), reg,
            [displayMsgCmd paneId])
    ∧ (∃ pre post, ineligibleMsg paneId cur = pre ++ cur.toList ++ post)
    ∧ (∀ rawMode noEnter : Bool, rawMode = true ∨ noEnter = true →
        executeCommand g reg newId now paneId command rawMode noEnter
          = dispatchAndSend g reg newId now paneId command rawMode noEnter) := by
  refine ⟨?_, ?_, ?_⟩
  · unfold executeCommand
    simp only [Bool.not_false, Bool.and_self, if_true, hq, hbad, Bool.not_false]
  · refine ⟨"Cannot execute command: pane ".toList ++ paneId.toList
      ++ " is running ".toList ++ [sqChar],
      [sqChar] ++ ", not a shell. Use rawMode for interactive applications.".toList, ?_⟩
    unfold ineligibleMsg
    simp [List.append_assoc]
  · intro rawMode noEnter hOr
    unfold executeCommand
    rcases hOr with h1 | h1 <;> subst h1 <;> simp

theorem C8_eligibility_check_amended_witness :
    (executeCommand gVim [] "id-1" 0 "%1" "ls" false false).1
        = Except.error (ExecErr.ineligiblePane (ineligibleMsg "%1" "vim")) := by
  have h := C8_eligibility_check_amended gVim [] "id-1" 0 "%1" "ls" "vim"
    (by decide) (by decide)
  rw [h.1]

/-- Claim C10: once the eligibility check passes, the pending record is
registered before transmission, so a gateway failure while sending keys
propagates as an error while the registry retains a pending record whose
id was never returned. -/
theorem C10_pending_record_on_send_failure (g : String → Except String String)
    (reg : List CommandExecution) (newId : String) (now : Int)
    (paneId command : String) (rawMode noEnter : Bool) (e : String)
    (helig : (rawMode = true ∨ noEnter = true)
        ∨ ∃ cur, g (displayMsgCmd paneId) = Except.ok cur
            ∧ VALID_SHELLS.contains (jsToLower cur) = true)
    (hfail : (runGatewayTrace g (sendCommands paneId command rawMode noEnter)).1
        = Except.error e) :
    (executeCommand g reg newId now paneId command rawMode noEnter).1
        = Except.error (ExecErr.gatewayFailure e)
    ∧ (executeCommand g reg newId now paneId command rawMode noEnter).2.1
        = mapSet reg (mkRecord newId now paneId command rawMode noEnter)
    ∧ mkRecord newId now paneId command rawMode noEnter
        ∈ (executeCommand g reg newId now paneId command rawMode noEnter).2.1
    ∧ (mkRecord newId now paneId command rawMode noEnter).status = CmdStatus.pending := by
  have hds : dispatchAndSend g reg newId now paneId command rawMode noEnter
      = (Except.error (ExecErr.gatewayFailure e),
         mapSet reg (mkRecord newId now paneId command rawMode noEnter),
         (runGatewayTrace g (sendCommands paneId command rawMode noEnter)).2) := by
    unfold dispatchAndSend
    rcases hrg : runGatewayTrace g (sendCommands paneId command rawMode noEnter)
      with ⟨out, t⟩
    rw [hrg] at hfail
    cases out with
    | ok u => exact absurd hfail (by simp)
    | error e2 =>
      simp only [Except.error.injEq] at hfail
      subst hfail
      rfl
  by_cases hb : (!rawMode && !noEnter) = true
  · unfold executeCommand
    rw [if_pos hb]
    rcases helig with h1 | ⟨cur, hq, hok⟩
    · exfalso
      rcases h1 with h1 | h1 <;> subst h1 <;> simp at hb
    · rw [hq]
      simp only [hok, Bool.not_true, Bool.false_eq_true, if_false]
      rw [hds]
      exact ⟨rfl, rfl, mem_mapSet_self reg _, rfl⟩
  · unfold executeCommand
    rw [if_neg hb]
    rw [hds]
    exact ⟨rfl, rfl, mem_mapSet_self reg _, rfl⟩

theorem C10_pending_record_on_send_failure_witness :
    (executeCommand gFail [] "id-1" 0 "%1" "ls" false false).1
      = Except.error (ExecErr.gatewayFailure "boom") :=
  (C10_pending_record_on_send_failure gFail [] "id-1" 0 "%1" "ls" false false "boom"
    (Or.inr ⟨"bash", by decide, by decide⟩) (by decide)).1

end TmuxMcp
